import Mathlib

/-!
Verification development for the Web3StudentTalk chat-relay bot
(Conversation and Configuration State Core).

The embedding models, from the source under src/:
- src/src/managers/conversation.py  (ConversationManager)
- src/src/logic/cohere.py           (CohereLogic.chat and reply extraction)
- src/src/commands/chat.py          (ChatCommands.send orchestration)
- src/src/config/config.py          (Config.load, Config.update_config, Config.is_admin)

Python reference semantics matter for the conversation manager: the
dictionary maps user ids to list OBJECTS, and `get_conversation` returns the
internal object itself. The model therefore carries an explicit heap of list
cells (`heap : Nat → List Msg`) and an allocation counter; every place the
Python code allocates a fresh list (`[]`) the model allocates a fresh cell.
-/

namespace WST

/-- A content block of a backend response, as inspected by
`hasattr(response.message.content[0], "text")` in cohere.py; `text = none`
models the absence of the attribute. -/
structure Block where
  text : Option String
deriving DecidableEq, Repr

/-- Content of a stored chat message. `cohere.py` stores either a plain
string or, when the first response block lacks a `text` attribute, the raw
block list itself. -/
inductive MsgContent where
  | text : String → MsgContent
  | raw : List Block → MsgContent
deriving DecidableEq, Repr

/-- One conversation entry: a role tag plus content, modelling the Python
dict `\x7b"role": ..., "content": ...\x7d`. -/
structure Msg where
  role : String
  content : MsgContent
deriving DecidableEq, Repr

/-- State of `ConversationManager` (conversation.py) plus the Python heap of
list objects it references. `conversations` and `ephemeral` model the two
dictionaries; `heap r` is the contents of list object `r`; `nextRef` is the
next fresh object address. -/
structure ConvState where
  heap : Nat → List Msg
  nextRef : Nat
  conversations : Int → Option Nat
  ephemeral : Int → Option Bool

/-- The state of a freshly constructed `ConversationManager`: both
dictionaries empty. -/
def initState : ConvState :=
  ⟨fun _ => [], 0, fun _ => none, fun _ => none⟩

/-- Overwrite one heap cell. -/
def heapSet (h : Nat → List Msg) (r : Nat) (v : List Msg) : Nat → List Msg :=
  fun r2 => if r2 = r then v else h r2

/-- Python `lst.append(m)` performed on the list object at address `r`:
mutates the cell in place. -/
def listAppend (s : ConvState) (r : Nat) (m : Msg) : ConvState :=
  { s with heap := heapSet s.heap r (s.heap r ++ [m]) }

/-- `ConversationManager.add_message`: if the user id is absent a fresh empty
list is allocated and bound in the dictionary, then the message is appended
to the list object the dictionary holds. -/
def addMessage (s : ConvState) (u : Int) (m : Msg) : ConvState :=
  match s.conversations u with
  | some r => listAppend s r m
  | none =>
    let r := s.nextRef
    let s1 : ConvState :=
      { s with nextRef := s.nextRef + 1,
               heap := heapSet s.heap r [],
               conversations := fun v => if v = u then some r else s.conversations v }
    listAppend s1 r m

/-- `ConversationManager.get_conversation`: `self.conversations.get(user_id, [])`
returns the stored list OBJECT when the key is present (no copy), and a fresh
empty list, not recorded in the dictionary, when it is absent. The result is
the address of the returned list object together with the (possibly extended
by the fresh allocation) state. -/
def getConversation (s : ConvState) (u : Int) : Nat × ConvState :=
  match s.conversations u with
  | some r => (r, s)
  | none => (s.nextRef, { s with nextRef := s.nextRef + 1,
                                 heap := heapSet s.heap s.nextRef [] })

/-- `ConversationManager.reset_conversation`: binds the user id to a fresh
empty list object. -/
def resetConversation (s : ConvState) (u : Int) : ConvState :=
  { s with nextRef := s.nextRef + 1,
           heap := heapSet s.heap s.nextRef [],
           conversations := fun v => if v = u then some s.nextRef else s.conversations v }

/-- `ConversationManager.clear_all_conversations`: `self.conversations.clear()`. -/
def clearAllConversations (s : ConvState) : ConvState :=
  { s with conversations := fun _ => none }

/-- `ConversationManager.get_ephemeral_setting`: dictionary lookup with
default `True`. -/
def getEphemeralSetting (s : ConvState) (u : Int) : Bool :=
  (s.ephemeral u).getD true

/-- `ConversationManager.set_ephemeral_setting`. -/
def setEphemeralSetting (s : ConvState) (u : Int) (b : Bool) : ConvState :=
  { s with ephemeral := fun v => if v = u then some b else s.ephemeral v }

/-- The canonical history of a user: the contents of the list object the
conversations dictionary currently binds for that user, empty when unbound.
This is the observable `get_conversation` exposes. -/
def getHistory (s : ConvState) (u : Int) : List Msg :=
  match s.conversations u with
  | some r => s.heap r
  | none => []

/-- Well-formed manager state: every list address stored in the dictionary
was allocated before the current allocation counter. Every state reachable
from `initState` through the operations above satisfies this. -/
def WF (s : ConvState) : Prop :=
  ∀ u r, s.conversations u = some r → r < s.nextRef

/-- An error escaping `CohereLogic.chat`: either an exception raised by the
external Cohere client call, or the IndexError raised by
`response.message.content[0]` on empty content; both are re-raised by the
bare `raise` in the except clause of cohere.py. -/
inductive ChatErr where
  | backendFail : String → ChatErr
  | indexError : ChatErr
deriving DecidableEq, Repr

/-- Shape of `response.message.content` of a successful backend call: the
Cohere SDK may deliver a plain string or a list of typed content blocks. -/
inductive RespContent where
  | str : String → RespContent
  | blocks : List Block → RespContent
deriving DecidableEq, Repr

/-- A successful backend response: content plus
`response.usage.tokens.input_tokens` and `...output_tokens`. -/
structure Response where
  content : RespContent
  inputTokens : Nat
  outputTokens : Nat
deriving DecidableEq, Repr

/-- The external Cohere client call `self.client.chat(model=..., messages=...)`,
a black-box collaborator: given the message list it either raises or returns
a response. -/
def Backend : Type :=
  List Msg → Except ChatErr Response

/-- The reply-extraction expression of cohere.py:
`response.message.content[0].text if hasattr(response.message.content[0], "text")
else response.message.content`. Indexing `[0]` raises IndexError on an empty
string or empty list; a first character of a string never has a `text`
attribute, so a non-empty string falls through to the whole content; a first
block without `text` also falls through, yielding the raw block list. -/
def extractContent : RespContent → Except ChatErr MsgContent
  | RespContent.str s =>
    if s.isEmpty then Except.error ChatErr.indexError
    else Except.ok (MsgContent.text s)
  | RespContent.blocks [] => Except.error ChatErr.indexError
  | RespContent.blocks (b :: bs) =>
    match b.text with
    | some t => Except.ok (MsgContent.text t)
    | none => Except.ok (MsgContent.raw (b :: bs))

/-- `CohereLogic.chat` of cohere.py: prepends the system prompt to a copy of
the conversation (`messages.extend(conversation)` copies the entries into a
new list, so the conversation object itself is never mutated), performs the
single backend call, and on success returns the extracted content together
with the usage counts. Any exception is logged and re-raised. -/
def CohereLogic.chat (sysPrompt : String) (backend : Backend)
    (conversation : List Msg) : Except ChatErr (MsgContent × Nat × Nat) :=
  let messages := Msg.mk "system" (MsgContent.text sysPrompt) :: conversation
  match backend messages with
  | Except.error e => Except.error e
  | Except.ok resp =>
    match extractContent resp.content with
    | Except.error e => Except.error e
    | Except.ok c => Except.ok (c, resp.inputTokens, resp.outputTokens)

/-- The state-and-result core of `ChatCommands.send` (chat.py): append the
user message, fetch the conversation object, call `CohereLogic.chat` on its
current contents, and on success append the assistant message and return the
reply with its usage counts. An error from the backend leaves the state as it
was after the user-message append and reaches the except clause of `send`
(modelled as the error component of the result). The Discord embed and
followup glue around this core is out of scope. -/
def ChatCommands.send (sysPrompt : String) (backend : Backend)
    (s : ConvState) (u : Int) (message : String) :
    ConvState × Except ChatErr (MsgContent × Nat × Nat) :=
  let s1 := addMessage s u (Msg.mk "user" (MsgContent.text message))
  let res := getConversation s1 u
  match CohereLogic.chat sysPrompt backend (res.2.heap res.1) with
  | Except.error e => (res.2, Except.error e)
  | Except.ok r => (addMessage res.2 u (Msg.mk "assistant" r.1), Except.ok r)

/-- One invocation of a `ConversationManager` method, for trace reasoning. -/
inductive ConvOp where
  | addMsg : Int → Msg → ConvOp
  | reset : Int → ConvOp
  | clearAll : ConvOp
  | setEph : Int → Bool → ConvOp
  | getConv : Int → ConvOp
deriving DecidableEq, Repr

/-- State effect of one manager invocation (the value returned by
`get_conversation` is dropped, its allocation effect kept). -/
def applyOp (s : ConvState) : ConvOp → ConvState
  | ConvOp.addMsg u m => addMessage s u m
  | ConvOp.reset u => resetConversation s u
  | ConvOp.clearAll => clearAllConversations s
  | ConvOp.setEph u b => setEphemeralSetting s u b
  | ConvOp.getConv u => (getConversation s u).2

/-- Run a sequence of manager invocations from the freshly constructed
manager. -/
def runOps (ops : List ConvOp) : ConvState :=
  ops.foldl applyOp initState

/-- Whether an invocation is a mutating operation that was passed the user id
`u`. `clear_all_conversations` takes no user id and `get_conversation` is the
non-mutating read. -/
def mutatesUser (op : ConvOp) (u : Int) : Bool :=
  match op with
  | ConvOp.addMsg v _ => v == u
  | ConvOp.reset v => v == u
  | ConvOp.clearAll => false
  | ConvOp.setEph v _ => v == u
  | ConvOp.getConv _ => false

/-- A parsed JSON value, in the subset relevant to the configuration file:
`json.loads` is applied only to the ADMIN_USER_IDS field, whose domain is a
list of integer identifiers. Numbers are modelled as integers and objects and
fractional literals are outside the modelled subset (both are rejected by the
loader as non-lists anyway). -/
inductive Json where
  | null : Json
  | bool : Bool → Json
  | num : Int → Json
  | str : String → Json
  | arr : List Json → Json

/-- Drop leading JSON whitespace. -/
def skipWs : List Char → List Char
  | [] => []
  | c :: cs =>
    if c = ' ' ∨ c = '\t' ∨ c = '\n' ∨ c = '\r' then skipWs cs else c :: cs

/-- Split a character list into its leading run of decimal digits and the
rest. -/
def readDigits : List Char → List Char × List Char
  | [] => ([], [])
  | c :: cs =>
    if c.isDigit then
      let r := readDigits cs
      (c :: r.1, r.2)
    else ([], c :: cs)

/-- Numeric value of a digit run. -/
def digitsToNat (ds : List Char) : Nat :=
  ds.foldl (fun acc c => acc * 10 + (c.toNat - 48)) 0

/-- Read the body of a JSON string literal up to its closing quote, handling
the simple escapes; returns the decoded characters and the rest of the
input. -/
def readStringBody : List Char → Option (List Char × List Char)
  | [] => none
  | c :: cs =>
    if c = '"' then some ([], cs)
    else if c = '\\' then
      match cs with
      | [] => none
      | e :: cs2 =>
        let esc : Option Char :=
          if e = '"' then some '"'
          else if e = '\\' then some '\\'
          else if e = '/' then some '/'
          else if e = 'n' then some '\n'
          else if e = 't' then some '\t'
          else if e = 'r' then some '\r'
          else none
        match esc with
        | none => none
        | some ch =>
          match readStringBody cs2 with
          | none => none
          | some br => some (ch :: br.1, br.2)
    else
      match readStringBody cs with
      | none => none
      | some br => some (c :: br.1, br.2)

/-- Consume an expected literal character sequence. -/
def dropLit : List Char → List Char → Option (List Char)
  | [], cs => some cs
  | _ :: _, [] => none
  | l :: ls, c :: cs => if c = l then dropLit ls cs else none

mutual

/-- Fuel-indexed recursive-descent reading of one JSON value, modelling
`json.loads` on the subset described at `Json`. -/
def parseValue : Nat → List Char → Option (Json × List Char)
  | 0, _ => none
  | fuel + 1, cs0 =>
    match skipWs cs0 with
    | [] => none
    | c :: cs =>
      if c = 'n' then (dropLit ['u', 'l', 'l'] cs).map (fun r => (Json.null, r))
      else if c = 't' then
        (dropLit ['r', 'u', 'e'] cs).map (fun r => (Json.bool true, r))
      else if c = 'f' then
        (dropLit ['a', 'l', 's', 'e'] cs).map (fun r => (Json.bool false, r))
      else if c = '"' then
        (readStringBody cs).map (fun r => (Json.str (String.mk r.1), r.2))
      else if c = '-' then
        match readDigits cs with
        | ([], _) => none
        | (ds, rest) => some (Json.num (-(digitsToNat ds : Int)), rest)
      else if c.isDigit then
        match readDigits (c :: cs) with
        | (ds, rest) => some (Json.num (digitsToNat ds), rest)
      else if c = '[' then
        match skipWs cs with
        | ']' :: rest => some (Json.arr [], rest)
        | cs2 =>
          match parseElems fuel cs2 with
          | none => none
          | some (items, rest) => some (Json.arr items, rest)
      else none

/-- Fuel-indexed reading of the comma-separated elements of a non-empty JSON
array, up to and including the closing bracket. -/
def parseElems : Nat → List Char → Option (List Json × List Char)
  | 0, _ => none
  | fuel + 1, cs =>
    match parseValue fuel cs with
    | none => none
    | some (j, rest) =>
      match skipWs rest with
      | ',' :: rest2 =>
        match parseElems fuel rest2 with
        | none => none
        | some (items, rest3) => some (j :: items, rest3)
      | ']' :: rest2 => some ([j], rest2)
      | _ => none

end

/-- Model of `json.loads`: read one value and require that only whitespace
remains. The fuel bound exceeds any possible nesting of the input. -/
def parseJson (s : String) : Option Json :=
  match parseValue (s.length + 1) s.data with
  | none => none
  | some (j, rest) => if skipWs rest = [] then some j else none

/-- Model of the Python `int(str)` conversion used on MASTER_ADMIN_ID:
optional surrounding whitespace, an optional sign, then at least one decimal
digit. -/
def parsePyInt (s : String) : Option Int :=
  match skipWs s.data with
  | [] => none
  | c :: cs =>
    let signed : Bool × List Char :=
      if c = '-' then (true, cs)
      else if c = '+' then (false, cs)
      else (false, c :: cs)
    match readDigits signed.2 with
    | ([], _) => none
    | (ds, rest) =>
      if skipWs rest = [] then
        some (if signed.1 then -(digitsToNat ds : Int) else (digitsToNat ds : Int))
      else none

/-- The fields of the `Config` dataclass (config.py). The runtime value of
`admin_user_ids` is whatever list `json.loads` produced, so its elements are
arbitrary JSON values, not necessarily integers, despite the `List[int]`
annotation. -/
structure Config where
  cohere_api_key : String
  discord_token : String
  master_admin_id : Int
  admin_user_ids : List Json
  config_path : String

/-- Python `==` between an integer user id and a stored admin-list element,
as evaluated by `user_id in self.admin_user_ids`: numeric equality, with the
Python quirk that booleans equal 0 and 1; values of other types never equal
an integer. -/
def pyIntEq (u : Int) : Json → Bool
  | Json.num n => u == n
  | Json.bool b => u == (if b then (1 : Int) else 0)
  | _ => false

/-- `Config.is_admin`:
`user_id == self.master_admin_id or user_id in self.admin_user_ids`. -/
def Config.is_admin (c : Config) (user_id : Int) : Bool :=
  user_id == c.master_admin_id || c.admin_user_ids.any (pyIntEq user_id)

/-- The DEFAULT section of a parsed configuration file: a finite key-value
map, modelled at the abstraction level configparser presents (a value for a
key, or absence). -/
def ConfigFile : Type :=
  String → Option String

/-- A filesystem of configuration files: `none` models a path that is absent
or unreadable (configparser.read swallows the OSError and the loader raises
FileNotFoundError for both). -/
def ConfigFS : Type :=
  String → Option ConfigFile

/-- Overwrite one key of a configuration file. -/
def fileSet (file : ConfigFile) (k v : String) : ConfigFile :=
  fun k2 => if k2 = k then some v else file k2

/-- Overwrite one path of the filesystem. -/
def fsSet (fs : ConfigFS) (p : String) (file : ConfigFile) : ConfigFS :=
  fun p2 => if p2 = p then some file else fs p2

/-- The error taxonomy of `Config.load`: FileNotFoundError, or the ValueError
every failure inside the try block is converted to (KeyError on a missing
required key, the int conversion, the not-a-list check, and JSONDecodeError,
which is itself a ValueError, all land there). -/
inductive LoadErr where
  | notFound : LoadErr
  | invalid : LoadErr
deriving DecidableEq, Repr

/-- `Config.load` (config.py): FileNotFoundError when the path is absent or
unreadable; otherwise parse ADMIN_USER_IDS (defaulting to "[]" when the key
is absent) with `json.loads` and require a list, then read the three required
keys, converting MASTER_ADMIN_ID with `int`; every failure inside the try
block surfaces as ValueError (modelled `LoadErr.invalid`). -/
def Config.load (fs : ConfigFS) (path : String) : Except LoadErr Config :=
  match fs path with
  | none => Except.error LoadErr.notFound
  | some file =>
    match parseJson ((file "ADMIN_USER_IDS").getD "[]") with
    | none => Except.error LoadErr.invalid
    | some j =>
      match j with
      | Json.arr adminIds =>
        match file "COHERE_API_KEY", file "DISCORD_TOKEN", file "MASTER_ADMIN_ID" with
        | some apiKey, some token, some masterStr =>
          match parsePyInt masterStr with
          | some masterId =>
            Except.ok (Config.mk apiKey token masterId adminIds path)
          | none => Except.error LoadErr.invalid
        | _, _, _ => Except.error LoadErr.invalid
      | _ => Except.error LoadErr.invalid

/-- The condition under which `Config.load` rejects an existing file:
ADMIN_USER_IDS fails to parse as a JSON list (element types unchecked), a
required key is missing, or MASTER_ADMIN_ID is non-numeric. -/
def fileInvalid (file : ConfigFile) : Bool :=
  (match parseJson ((file "ADMIN_USER_IDS").getD "[]") with
   | some (Json.arr _) => false
   | _ => true) ||
  (file "COHERE_API_KEY").isNone ||
  (file "DISCORD_TOKEN").isNone ||
  (match file "MASTER_ADMIN_ID" with
   | none => true
   | some m => (parsePyInt m).isNone)

/-- The admin list a file yields under `Config.load` when it is accepted:
whatever list `json.loads` produced for ADMIN_USER_IDS (default "[]"). -/
def fileAdminIds (file : ConfigFile) : List Json :=
  match parseJson ((file "ADMIN_USER_IDS").getD "[]") with
  | some (Json.arr l) => l
  | _ => []

/-- The error taxonomy of `Config.update_config`: the FileNotFoundError
raised outside the try block, or the RuntimeError that wraps every exception
raised inside it (unknown key, invalid JSON, non-numeric integer). -/
inductive UpdateErr where
  | notFound : UpdateErr
  | failed : UpdateErr
deriving DecidableEq, Repr

/-- `Config.update_config` (config.py): requires the file to exist and the
key to be present in its DEFAULT section, then rewrites the whole file with
the key overwritten BEFORE validating the value, and finally mirrors the new
value into the in-memory field for the four recognized keys (parsing
ADMIN_USER_IDS as a JSON list and MASTER_ADMIN_ID as an integer; a validation
failure at that point is wrapped in RuntimeError, after the file write has
already happened). Returns the filesystem, the in-memory config, and the
outcome. -/
def Config.update_config (c : Config) (fs : ConfigFS) (key value : String) :
    ConfigFS × Config × Except UpdateErr Unit :=
  match fs c.config_path with
  | none => (fs, c, Except.error UpdateErr.notFound)
  | some file =>
    match file key with
    | none => (fs, c, Except.error UpdateErr.failed)
    | some _ =>
      let fs2 := fsSet fs c.config_path (fileSet file key value)
      if key = "ADMIN_USER_IDS" then
        match parseJson value with
        | some (Json.arr l) =>
          (fs2, { c with admin_user_ids := l }, Except.ok ())
        | _ => (fs2, c, Except.error UpdateErr.failed)
      else if key = "MASTER_ADMIN_ID" then
        match parsePyInt value with
        | some n => (fs2, { c with master_admin_id := n }, Except.ok ())
        | none => (fs2, c, Except.error UpdateErr.failed)
      else if key = "DISCORD_TOKEN" then
        (fs2, { c with discord_token := value }, Except.ok ())
      else if key = "COHERE_API_KEY" then
        (fs2, { c with cohere_api_key := value }, Except.ok ())
      else
        (fs2, c, Except.ok ())

/-! Concrete fixtures used to instantiate the theorems below. -/

/-- A concrete user message. -/
def hiMsg : Msg := Msg.mk "user" (MsgContent.text "hi")

/-- A concrete message appended by a caller to a returned list object. -/
def extraMsg : Msg := Msg.mk "user" (MsgContent.text "extra")

/-- Manager state in which user 42 has the one-entry history `[hiMsg]`. -/
def aliasState : ConvState := addMessage initState 42 hiMsg

/-- A backend that always succeeds with the string reply "hello" and usage
counts 3 and 1. -/
def okBackend : Backend := fun _ => Except.ok (Response.mk (RespContent.str "hello") 3 1)

/-- A backend that always raises. -/
def errBackend : Backend := fun _ => Except.error (ChatErr.backendFail "boom")

/-- A backend that succeeds with an empty string as content. -/
def emptyStrBackend : Backend :=
  fun _ => Except.ok (Response.mk (RespContent.str "") 3 1)

/-- A configuration file holding all four recognized keys with valid
values. -/
def fileGood : ConfigFile := fun k =>
  if k = "COHERE_API_KEY" then some "key"
  else if k = "DISCORD_TOKEN" then some "tok"
  else if k = "MASTER_ADMIN_ID" then some "1"
  else if k = "ADMIN_USER_IDS" then some "[2, 3]"
  else none

/-- A filesystem holding `fileGood` at path "good.ini". -/
def fsGood : ConfigFS := fun p => if p = "good.ini" then some fileGood else none

/-- The in-memory config matching `fileGood`. -/
def cGood : Config :=
  Config.mk "key" "tok" 1 [Json.num 2, Json.num 3] "good.ini"

/-- A configuration file whose ADMIN_USER_IDS value is a JSON list of
strings, not of integers. -/
def fileNonIntAdmins : ConfigFile := fun k =>
  if k = "COHERE_API_KEY" then some "key"
  else if k = "DISCORD_TOKEN" then some "tok"
  else if k = "MASTER_ADMIN_ID" then some "1"
  else if k = "ADMIN_USER_IDS" then some "[\"x\"]"
  else none

/-- A filesystem holding `fileNonIntAdmins` at path "config.ini". -/
def fsNonIntAdmins : ConfigFS :=
  fun p => if p = "config.ini" then some fileNonIntAdmins else none

/-- A configuration file holding only the COHERE_API_KEY key. -/
def fileOnlyCohere : ConfigFile :=
  fun k => if k = "COHERE_API_KEY" then some "old" else none

/-- A filesystem holding `fileOnlyCohere` at path "p.ini". -/
def fsOnlyCohere : ConfigFS :=
  fun p => if p = "p.ini" then some fileOnlyCohere else none

/-- An in-memory config whose path points at `fileOnlyCohere`. -/
def cOnlyCohere : Config := Config.mk "old" "tok" 1 [] "p.ini"

/-- The filesystem produced by updating DISCORD_TOKEN to "newtok" on
`fsGood`. -/
def updGoodFS : ConfigFS :=
  (Config.update_config cGood fsGood "DISCORD_TOKEN" "newtok").1

/-- The in-memory config produced by that update. -/
def updGoodC : Config :=
  (Config.update_config cGood fsGood "DISCORD_TOKEN" "newtok").2.1

/-- The config obtained by reloading after that update. -/
def loadedGood : Config :=
  Config.mk "key" "newtok" 1 [Json.num 2, Json.num 3] "good.ini"

theorem getHistory_of_ref {s : ConvState} {u : Int} {r : Nat}
    (h : s.conversations u = some r) : getHistory s u = s.heap r := by
  simp [getHistory, h]

theorem addMessage_self (s : ConvState) (u : Int) (m : Msg) :
    ∃ r, (addMessage s u m).conversations u = some r ∧
      (addMessage s u m).heap r = getHistory s u ++ [m] := by
  cases h : s.conversations u with
  | some r =>
    refine ⟨r, ?_, ?_⟩
    · simp [addMessage, h, listAppend]
    · simp [addMessage, h, listAppend, heapSet, getHistory_of_ref h]
  | none =>
    refine ⟨s.nextRef, ?_, ?_⟩
    · simp [addMessage, h, listAppend]
    · simp [addMessage, h, listAppend, heapSet, getHistory, h]

theorem getHistory_addMessage_self (s : ConvState) (u : Int) (m : Msg) :
    getHistory (addMessage s u m) u = getHistory s u ++ [m] := by
  cases h : s.conversations u with
  | some r =>
    simp [addMessage, h, listAppend, getHistory, heapSet]
  | none =>
    simp [addMessage, h, listAppend, getHistory, heapSet]

theorem getEphemeral_addMessage (s : ConvState) (u v : Int) (m : Msg) :
    getEphemeralSetting (addMessage s u m) v = getEphemeralSetting s v := by
  cases h : s.conversations u with
  | some r => simp [addMessage, h, listAppend, getEphemeralSetting]
  | none => simp [addMessage, h, listAppend, getEphemeralSetting]

theorem send_eq (sys : String) (backend : Backend) (s : ConvState) (u : Int)
    (message : String) (rf : Nat)
    (hc : (addMessage s u (Msg.mk "user" (MsgContent.text message))).conversations u
      = some rf) :
    ChatCommands.send sys backend s u message =
      match CohereLogic.chat sys backend
          ((addMessage s u (Msg.mk "user" (MsgContent.text message))).heap rf) with
      | Except.error e =>
        (addMessage s u (Msg.mk "user" (MsgContent.text message)), Except.error e)
      | Except.ok r =>
        (addMessage (addMessage s u (Msg.mk "user" (MsgContent.text message))) u
          (Msg.mk "assistant" r.1), Except.ok r) := by
  simp only [ChatCommands.send]
  rw [show getConversation (addMessage s u (Msg.mk "user" (MsgContent.text message))) u
      = (rf, addMessage s u (Msg.mk "user" (MsgContent.text message))) from by
    simp [getConversation, hc]]

/-- C1: when the external backend call succeeds and the response carries
reply text `reply` with usage counts `(i, o)`, `send` appends the user entry
and then the assistant entry to the history of user `u`, so the history
afterwards is the prior history followed by exactly those two entries in
that order, and the reply is returned together with the usage counts. -/
theorem send_success_appends_two (sys : String) (backend : Backend) (u : Int)
    (m : String) (s : ConvState) (resp : Response) (reply : String) (i o : Nat)
    (hb : backend (Msg.mk "system" (MsgContent.text sys) ::
            (getHistory s u ++ [Msg.mk "user" (MsgContent.text m)])) = Except.ok resp)
    (he : extractContent resp.content = Except.ok (MsgContent.text reply))
    (hi : resp.inputTokens = i) (ho : resp.outputTokens = o) :
    getHistory (ChatCommands.send sys backend s u m).1 u =
      getHistory s u ++ [Msg.mk "user" (MsgContent.text m),
                         Msg.mk "assistant" (MsgContent.text reply)] ∧
    (ChatCommands.send sys backend s u m).2 =
      Except.ok (MsgContent.text reply, i, o) := by
  obtain ⟨rf, hc, hh⟩ := addMessage_self s u (Msg.mk "user" (MsgContent.text m))
  have hmsgs : Msg.mk "system" (MsgContent.text sys) ::
      (getHistory s u ++ [Msg.mk "user" (MsgContent.text m)]) =
      Msg.mk "system" (MsgContent.text sys) ::
        (addMessage s u (Msg.mk "user" (MsgContent.text m))).heap rf := by
    rw [hh]
  have hchat : CohereLogic.chat sys backend
      ((addMessage s u (Msg.mk "user" (MsgContent.text m))).heap rf) =
      Except.ok (MsgContent.text reply, i, o) := by
    rw [CohereLogic.chat, ← hmsgs, hb]
    simp [he, hi, ho]
  rw [send_eq sys backend s u m rf hc, hchat]
  refine ⟨?_, rfl⟩
  rw [getHistory_addMessage_self, getHistory_of_ref hc, hh, List.append_assoc]
  rfl

/-- C2: when the external backend call raises, `send` leaves the history of
user `u` as the prior history followed by exactly the single user entry (no
assistant entry is appended), and the failure is propagated (the single
backend attempt is the one modelled call). -/
theorem send_backend_error_keeps_user_msg (sys : String) (backend : Backend)
    (u : Int) (m : String) (s : ConvState) (e : ChatErr)
    (hb : backend (Msg.mk "system" (MsgContent.text sys) ::
            (getHistory s u ++ [Msg.mk "user" (MsgContent.text m)])) = Except.error e) :
    getHistory (ChatCommands.send sys backend s u m).1 u =
      getHistory s u ++ [Msg.mk "user" (MsgContent.text m)] ∧
    (ChatCommands.send sys backend s u m).2 = Except.error e := by
  obtain ⟨rf, hc, hh⟩ := addMessage_self s u (Msg.mk "user" (MsgContent.text m))
  have hmsgs : Msg.mk "system" (MsgContent.text sys) ::
      (getHistory s u ++ [Msg.mk "user" (MsgContent.text m)]) =
      Msg.mk "system" (MsgContent.text sys) ::
        (addMessage s u (Msg.mk "user" (MsgContent.text m))).heap rf := by
    rw [hh]
  have hchat : CohereLogic.chat sys backend
      ((addMessage s u (Msg.mk "user" (MsgContent.text m))).heap rf) =
      Except.error e := by
    rw [CohereLogic.chat, ← hmsgs, hb]
  rw [send_eq sys backend s u m rf hc, hchat]
  exact ⟨by rw [getHistory_of_ref hc, hh], rfl⟩

/-- Witness for C1 at a concrete input: user 42 sends "hi" against a backend
answering "hello" with usage (3, 1) from the fresh manager state. -/
theorem send_success_appends_two_witness :
    getHistory (ChatCommands.send "sys" okBackend initState 42 "hi").1 42 =
      [Msg.mk "user" (MsgContent.text "hi"),
       Msg.mk "assistant" (MsgContent.text "hello")] ∧
    (ChatCommands.send "sys" okBackend initState 42 "hi").2 =
      Except.ok (MsgContent.text "hello", 3, 1) := by
  have h := send_success_appends_two "sys" okBackend 42 "hi" initState
    (Response.mk (RespContent.str "hello") 3 1) "hello" 3 1 rfl rfl rfl rfl
  simpa [getHistory, initState] using h

theorem WF_aliasState : WF aliasState := by
  intro u r h
  by_cases hu : u = 42
  · subst hu
    simp [aliasState, addMessage, initState, listAppend] at h
    simp [aliasState, addMessage, initState, listAppend, ← h]
  · simp [aliasState, addMessage, initState, listAppend, hu] at h

/-- C3 counterexample: for user 42, whose history is the single entry
`hiMsg`, the sequence returned by `get_conversation` is the internal list
object itself; appending `extraMsg` to it changes the canonical history of
user 42 from `[hiMsg]` to `[hiMsg, extraMsg]` even though `add_message` was
never called, so the returned sequence is NOT isolated from the manager
state. -/
theorem getConversation_alias_counterexample :
    getHistory aliasState 42 = [hiMsg] ∧
    getHistory (listAppend (getConversation aliasState 42).2
      (getConversation aliasState 42).1 extraMsg) 42 = [hiMsg, extraMsg] ∧
    getHistory (listAppend (getConversation aliasState 42).2
      (getConversation aliasState 42).1 extraMsg) 42 ≠ getHistory aliasState 42 := by
  refine ⟨rfl, rfl, by decide⟩

/-- C3 amended: isolation holds only for a user id with no stored history.
When the user id is absent from the conversations dictionary,
`get_conversation` returns a freshly allocated empty list, and mutating that
list changes no canonical history of any user; for a user with existing
history the returned sequence aliases the internal state (see the
counterexample). -/
theorem getConversation_fresh_isolated (s : ConvState) (u : Int) (m : Msg)
    (hwf : WF s) (habs : s.conversations u = none) (v : Int) :
    getHistory (listAppend (getConversation s u).2 (getConversation s u).1 m) v
      = getHistory s v := by
  have hget : getConversation s u =
      (s.nextRef, { s with nextRef := s.nextRef + 1,
                           heap := heapSet s.heap s.nextRef [] }) := by
    simp [getConversation, habs]
  rw [hget]
  cases hv : s.conversations v with
  | none => simp [listAppend, getHistory, hv]
  | some rv =>
    have hne : rv ≠ s.nextRef := Nat.ne_of_lt (hwf v rv hv)
    simp [listAppend, getHistory, hv, heapSet, hne]

/-- Witness for the amended C3: in `aliasState`, user 7 has no history;
appending to the list `get_conversation` returns for user 7 leaves the
canonical history of user 42 unchanged. -/
theorem getConversation_fresh_isolated_witness :
    getHistory (listAppend (getConversation aliasState 7).2
      (getConversation aliasState 7).1 extraMsg) 42 = getHistory aliasState 42 :=
  getConversation_fresh_isolated aliasState 7 extraMsg WF_aliasState (by decide) 42

/-- C8: `reset_conversation` empties the history of the given user, leaves
every other user history unchanged, and leaves every ephemeral display
setting unchanged. -/
theorem reset_conversation_frame (s : ConvState) (u : Int) (hwf : WF s) :
    getHistory (resetConversation s u) u = [] ∧
    (∀ v, v ≠ u → getHistory (resetConversation s u) v = getHistory s v) ∧
    (∀ w, getEphemeralSetting (resetConversation s u) w = getEphemeralSetting s w) := by
  refine ⟨?_, ?_, ?_⟩
  · simp [resetConversation, getHistory, heapSet]
  · intro v hvu
    cases hv : s.conversations v with
    | none => simp [resetConversation, getHistory, hv, hvu]
    | some rv =>
      have hne : rv ≠ s.nextRef := Nat.ne_of_lt (hwf v rv hv)
      simp [resetConversation, getHistory, hv, hvu, heapSet, hne]
  · intro w
    simp [resetConversation, getEphemeralSetting]

/-- Witness for C8 at a concrete state: resetting user 42 in `aliasState`
empties the history of 42, keeps the (empty) history of user 1, and keeps
the ephemeral setting of user 42. -/
theorem reset_conversation_frame_witness :
    getHistory (resetConversation aliasState 42) 42 = [] ∧
    getHistory (resetConversation aliasState 42) 1 = getHistory aliasState 1 ∧
    getEphemeralSetting (resetConversation aliasState 42) 42 =
      getEphemeralSetting aliasState 42 := by
  have h := reset_conversation_frame aliasState 42 WF_aliasState
  exact ⟨h.1, h.2.1 1 (by decide), h.2.2 42⟩

theorem applyOp_untouched (s : ConvState) (u : Int) (op : ConvOp)
    (hop : mutatesUser op u = false)
    (hc : s.conversations u = none) (he : s.ephemeral u = none) :
    (applyOp s op).conversations u = none ∧ (applyOp s op).ephemeral u = none := by
  cases op with
  | addMsg v m =>
    have hv : ¬ u = v := fun h => by simp [mutatesUser, h] at hop
    cases hcv : s.conversations v with
    | some r => simp [applyOp, addMessage, hcv, listAppend, hc, he]
    | none => simp [applyOp, addMessage, hcv, listAppend, hc, he, hv]
  | reset v =>
    have hv : ¬ u = v := fun h => by simp [mutatesUser, h] at hop
    simp [applyOp, resetConversation, hc, he, hv]
  | clearAll => simp [applyOp, clearAllConversations, he]
  | setEph v b =>
    have hv : ¬ u = v := fun h => by simp [mutatesUser, h] at hop
    simp [applyOp, setEphemeralSetting, hc, he, hv]
  | getConv v =>
    cases hcv : s.conversations v with
    | some r => simp [applyOp, getConversation, hcv, hc, he]
    | none => simp [applyOp, getConversation, hcv, hc, he]

theorem foldl_untouched (u : Int) (ops : List ConvOp) :
    ∀ s : ConvState, (∀ op ∈ ops, mutatesUser op u = false) →
      s.conversations u = none → s.ephemeral u = none →
      (ops.foldl applyOp s).conversations u = none ∧
        (ops.foldl applyOp s).ephemeral u = none := by
  induction ops with
  | nil => intro s _ hc he; exact ⟨hc, he⟩
  | cons op ops ih =>
    intro s h hc he
    have hstep := applyOp_untouched s u op (h op (by simp)) hc he
    exact ih (applyOp s op) (fun o ho => h o (by simp [ho])) hstep.1 hstep.2

/-- C9: a user id never passed to any mutating manager operation has an
empty history and ephemeral setting true, after any sequence of manager
invocations from the fresh manager. -/
theorem fresh_user_defaults (ops : List ConvOp) (u : Int)
    (h : ∀ op ∈ ops, mutatesUser op u = false) :
    getHistory (runOps ops) u = [] ∧ getEphemeralSetting (runOps ops) u = true := by
  have H := foldl_untouched u ops initState h rfl rfl
  exact ⟨by simp [runOps, getHistory, H.1], by simp [runOps, getEphemeralSetting, H.2]⟩

/-- Witness for C9 at a concrete trace: user 2 is only ever passed to the
non-mutating `get_conversation`; after the trace their history is empty and
their ephemeral setting is true. -/
theorem fresh_user_defaults_witness :
    getHistory (runOps [ConvOp.addMsg 1 hiMsg, ConvOp.setEph 1 false,
      ConvOp.getConv 2, ConvOp.clearAll]) 2 = [] ∧
    getEphemeralSetting (runOps [ConvOp.addMsg 1 hiMsg, ConvOp.setEph 1 false,
      ConvOp.getConv 2, ConvOp.clearAll]) 2 = true :=
  fresh_user_defaults [ConvOp.addMsg 1 hiMsg, ConvOp.setEph 1 false,
    ConvOp.getConv 2, ConvOp.clearAll] 2 (by decide)

/-- Witness for C2 at a concrete input: user 42 sends "hi" against a backend
that raises, from the fresh manager state. -/
theorem send_backend_error_keeps_user_msg_witness :
    getHistory (ChatCommands.send "sys" errBackend initState 42 "hi").1 42 =
      [Msg.mk "user" (MsgContent.text "hi")] ∧
    (ChatCommands.send "sys" errBackend initState 42 "hi").2 =
      Except.error (ChatErr.backendFail "boom") := by
  have h := send_backend_error_keeps_user_msg "sys" errBackend 42 "hi" initState
    (ChatErr.backendFail "boom") rfl
  simpa [getHistory, initState] using h

/-- C5 counterexample: the backend call succeeds with a response whose
content is the direct string "" (one of the two shapes the claim covers),
yet `chat` does not return a plain string with the usage counts: indexing
`content[0]` raises IndexError, which is re-raised. -/
theorem chat_empty_string_raises :
    CohereLogic.chat "sys" emptyStrBackend [] = Except.error ChatErr.indexError := rfl

/-- C5 amended: for a successful backend response whose content is a
non-empty direct string, or a non-empty list of content blocks whose first
block carries a text field, `chat` normalizes the content to a plain string
(the whole string, respectively the text of the first block) and returns it
with the input and output token counts. Content that is an empty string or
an empty block list raises IndexError instead, and a first block without a
text field yields the raw block list. -/
theorem chat_normalizes_shapes (sys : String) (backend : Backend)
    (conv : List Msg) (resp : Response)
    (hb : backend (Msg.mk "system" (MsgContent.text sys) :: conv) = Except.ok resp) :
    (∀ t, resp.content = RespContent.str t → t ≠ "" →
      CohereLogic.chat sys backend conv =
        Except.ok (MsgContent.text t, resp.inputTokens, resp.outputTokens)) ∧
    (∀ t b bs, resp.content = RespContent.blocks (b :: bs) → b.text = some t →
      CohereLogic.chat sys backend conv =
        Except.ok (MsgContent.text t, resp.inputTokens, resp.outputTokens)) := by
  constructor
  · intro t hct hne
    have hemp : t.isEmpty = false := by
      cases ht : t.isEmpty
      · rfl
      · exact absurd ((String.isEmpty_iff t).mp ht) hne
    rw [CohereLogic.chat, hb]
    simp [extractContent, hct, hemp]
  · intro t b bs hct hbt
    rw [CohereLogic.chat, hb]
    simp [extractContent, hct, hbt]

/-- Witness for the amended C5: a backend answering the block shape with
first-block text "hey" is normalized to the plain string "hey" with usage
(4, 2), and the string shape "hello" likewise. -/
theorem chat_normalizes_shapes_witness :
    CohereLogic.chat "sys" (fun _ => Except.ok
        (Response.mk (RespContent.blocks [Block.mk (some "hey")]) 4 2)) [] =
      Except.ok (MsgContent.text "hey", 4, 2) ∧
    CohereLogic.chat "sys" okBackend [] =
      Except.ok (MsgContent.text "hello", 3, 1) := by
  constructor
  · exact (chat_normalizes_shapes "sys" (fun _ => Except.ok
      (Response.mk (RespContent.blocks [Block.mk (some "hey")]) 4 2)) []
      (Response.mk (RespContent.blocks [Block.mk (some "hey")]) 4 2) rfl).2
      "hey" (Block.mk (some "hey")) [] rfl rfl
  · exact (chat_normalizes_shapes "sys" okBackend []
      (Response.mk (RespContent.str "hello") 3 1) rfl).1 "hello" rfl (by decide)

/-- C7: `is_admin` is true exactly for the master admin identity and the
members of the admin identity list; it is a pure function of the two config
fields, so it reflects any update immediately. Stated for configs whose
admin list holds integers, the domain the dataclass declares. -/
theorem is_admin_iff (c : Config) (u : Int) (l : List Int)
    (h : c.admin_user_ids = l.map Json.num) :
    c.is_admin u = true ↔ (u = c.master_admin_id ∨ u ∈ l) := by
  simp only [Config.is_admin, h, Bool.or_eq_true, beq_iff_eq, List.any_eq_true]
  constructor
  · rintro (hm | ⟨j, hj, hpj⟩)
    · exact Or.inl hm
    · obtain ⟨x, hx, rfl⟩ := List.mem_map.mp hj
      have hux : u = x := by simpa [pyIntEq] using hpj
      exact Or.inr (hux ▸ hx)
  · rintro (hm | hx)
    · exact Or.inl hm
    · exact Or.inr ⟨Json.num u, List.mem_map_of_mem Json.num hx, by simp [pyIntEq]⟩

/-- Witness for C7 at a concrete config: with master id 1 and admin list
[2, 3], user 2 is an admin exactly because 2 is in the list. -/
theorem is_admin_iff_witness :
    cGood.is_admin 2 = true ↔ (2 = cGood.master_admin_id ∨ (2 : Int) ∈ [(2 : Int), 3]) :=
  is_admin_iff cGood 2 [2, 3] rfl

theorem load_eq (fs : ConfigFS) (path : String) (file : ConfigFile)
    (h : fs path = some file) :
    Config.load fs path =
      if fileInvalid file then Except.error LoadErr.invalid
      else Except.ok (Config.mk ((file "COHERE_API_KEY").getD "")
        ((file "DISCORD_TOKEN").getD "")
        ((parsePyInt ((file "MASTER_ADMIN_ID").getD "")).getD 0)
        (fileAdminIds file) path) := by
  simp only [Config.load, h]
  cases hj : parseJson ((file "ADMIN_USER_IDS").getD "[]") with
  | none => simp [fileInvalid, hj]
  | some j =>
    cases j with
    | arr l =>
      cases hk1 : file "COHERE_API_KEY" with
      | none => simp [fileInvalid, hj, hk1]
      | some apiKey =>
        cases hk2 : file "DISCORD_TOKEN" with
        | none => simp [fileInvalid, hj, hk1, hk2]
        | some token =>
          cases hk3 : file "MASTER_ADMIN_ID" with
          | none => simp [fileInvalid, hj, hk1, hk2, hk3]
          | some ms =>
            cases hm : parsePyInt ms with
            | none => simp [fileInvalid, hj, hk1, hk2, hk3, hm]
            | some n => simp [fileInvalid, fileAdminIds, hj, hk1, hk2, hk3, hm]
    | null => simp [fileInvalid, hj]
    | bool b => simp [fileInvalid, hj]
    | num n => simp [fileInvalid, hj]
    | str t => simp [fileInvalid, hj]

/-- C4 counterexample: a file whose ADMIN_USER_IDS value is the JSON text of
a list of strings (not integers) is ACCEPTED by `Config.load` — the claimed
invalid-config error does not occur, because the loader only checks that the
JSON value is a list, never that its elements are integers. -/
theorem load_accepts_non_integer_admin_list :
    Config.load fsNonIntAdmins "config.ini" =
      Except.ok (Config.mk "key" "tok" 1 [Json.str "x"] "config.ini") ∧
    Config.load fsNonIntAdmins "config.ini" ≠ Except.error LoadErr.invalid := by
  refine ⟨rfl, ?_⟩
  intro h
  rw [show Config.load fsNonIntAdmins "config.ini" =
    Except.ok (Config.mk "key" "tok" 1 [Json.str "x"] "config.ini") from rfl] at h
  exact Except.noConfusion h

/-- C4 amended: `load` fails with the not-found error iff the file is absent
or unreadable; for a present file it fails with the invalid-config error iff
ADMIN_USER_IDS does not parse as JSON text denoting a list (element types
are NOT checked), a required key (API key, bot token, master admin identity)
is missing, or the master admin identity is non-numeric; in every other case
it returns the parsed Config. -/
theorem load_classification (fs : ConfigFS) (path : String) :
    (Config.load fs path = Except.error LoadErr.notFound ↔ fs path = none) ∧
    ∀ file, fs path = some file →
      (Config.load fs path = Except.error LoadErr.invalid ↔ fileInvalid file = true) ∧
      (fileInvalid file = false → ∃ c, Config.load fs path = Except.ok c) := by
  constructor
  · cases hfs : fs path with
    | none => simp [Config.load, hfs]
    | some file =>
      rw [load_eq fs path file hfs]
      constructor
      · intro h
        cases hinv : fileInvalid file <;> simp [hinv] at h
      · intro h
        exact Option.noConfusion h
  · intro file hfs
    rw [load_eq fs path file hfs]
    constructor
    · cases hinv : fileInvalid file with
      | true => simp [hinv]
      | false => simp [hinv]
    · intro hinv
      rw [hinv]
      exact ⟨_, if_neg (by simp)⟩

/-- Witness for the amended C4: a complete valid file is classified as
loadable and indeed loads. -/
theorem load_classification_witness :
    ∃ c, Config.load fsGood "good.ini" = Except.ok c :=
  ((load_classification fsGood "good.ini").2 fileGood rfl).2 rfl

theorem load_ok_inv {fs : ConfigFS} {path : String} {c : Config}
    (h : Config.load fs path = Except.ok c) :
    ∃ file, fs path = some file ∧
      file "COHERE_API_KEY" = some c.cohere_api_key ∧
      file "DISCORD_TOKEN" = some c.discord_token ∧
      (∃ ms, file "MASTER_ADMIN_ID" = some ms ∧
        parsePyInt ms = some c.master_admin_id) ∧
      parseJson ((file "ADMIN_USER_IDS").getD "[]") =
        some (Json.arr c.admin_user_ids) := by
  cases hfs : fs path with
  | none =>
    rw [Config.load, hfs] at h
    exact Except.noConfusion h
  | some file =>
    refine ⟨file, rfl, ?_⟩
    simp only [Config.load, hfs] at h
    cases hj : parseJson ((file "ADMIN_USER_IDS").getD "[]") with
    | none =>
      simp only [hj] at h
      exact Except.noConfusion h
    | some j =>
      simp only [hj] at h
      cases j with
      | arr l =>
        cases hk1 : file "COHERE_API_KEY" with
        | none =>
          simp only [hk1] at h
          exact Except.noConfusion h
        | some apiKey =>
          cases hk2 : file "DISCORD_TOKEN" with
          | none =>
            simp only [hk1, hk2] at h
            exact Except.noConfusion h
          | some token =>
            cases hk3 : file "MASTER_ADMIN_ID" with
            | none =>
              simp only [hk1, hk2, hk3] at h
              exact Except.noConfusion h
            | some ms =>
              simp only [hk1, hk2, hk3] at h
              cases hm : parsePyInt ms with
              | none =>
                simp only [hm] at h
                exact Except.noConfusion h
              | some n =>
                simp only [hm] at h
                cases h
                exact ⟨rfl, rfl, ⟨ms, rfl, hm⟩, rfl⟩
      | null => exact Except.noConfusion h
      | bool b => exact Except.noConfusion h
      | num n => exact Except.noConfusion h
      | str t => exact Except.noConfusion h

theorem update_fst (c : Config) (fs : ConfigFS) (key value : String)
    (file : ConfigFile) (hfs : fs c.config_path = some file)
    (w : String) (hk : file key = some w) :
    (Config.update_config c fs key value).1 =
      fsSet fs c.config_path (fileSet file key value) := by
  simp only [Config.update_config, hfs, hk]
  repeat' split
  all_goals rfl

/-- C6 counterexample: on a file that holds only COHERE_API_KEY,
`update_config("COHERE_API_KEY", "new")` succeeds, but reloading from
storage does NOT yield the value: `Config.load` fails with the
invalid-config error because the other required keys are missing, so no
value at all is yielded for the key. -/
theorem update_then_load_can_fail :
    (Config.update_config cOnlyCohere fsOnlyCohere "COHERE_API_KEY" "new").2.2 =
      Except.ok () ∧
    Config.load
      (Config.update_config cOnlyCohere fsOnlyCohere "COHERE_API_KEY" "new").1
      "p.ini" = Except.error LoadErr.invalid :=
  ⟨rfl, rfl⟩

/-- C6 amended: for each recognized key, if `update_config(key, value)`
succeeds AND the rewritten file still loads successfully, then the loaded
config carries `value` for that key (literally for the two string keys;
through the integer parse for MASTER_ADMIN_ID and through the JSON list
parse for ADMIN_USER_IDS). The added proviso is forced: the update succeeds
even when the rest of the file is unloadable. -/
theorem update_then_load_round_trip (c : Config) (fs : ConfigFS)
    (key value : String) (fs2 : ConfigFS) (c2 : Config)
    (hu : Config.update_config c fs key value = (fs2, c2, Except.ok ()))
    (c3 : Config) (hl : Config.load fs2 c.config_path = Except.ok c3) :
    (key = "COHERE_API_KEY" → c3.cohere_api_key = value) ∧
    (key = "DISCORD_TOKEN" → c3.discord_token = value) ∧
    (key = "MASTER_ADMIN_ID" → parsePyInt value = some c3.master_admin_id) ∧
    (key = "ADMIN_USER_IDS" → parseJson value = some (Json.arr c3.admin_user_ids)) := by
  obtain ⟨file, hfs, w, hk⟩ :
      ∃ file, fs c.config_path = some file ∧ ∃ w, file key = some w := by
    cases hfs : fs c.config_path with
    | none =>
      simp only [Config.update_config, hfs, Prod.mk.injEq] at hu
      exact absurd hu.2.2 (by simp)
    | some file =>
      refine ⟨file, rfl, ?_⟩
      cases hk : file key with
      | none =>
        simp only [Config.update_config, hfs, hk, Prod.mk.injEq] at hu
        exact absurd hu.2.2 (by simp)
      | some w => exact ⟨w, rfl⟩
  have hfs2 : fs2 = fsSet fs c.config_path (fileSet file key value) := by
    have hft := update_fst c fs key value file hfs w hk
    rw [hu] at hft
    exact hft
  subst hfs2
  obtain ⟨file2, hfs2, k1, k2, ⟨ms, hms, hmsv⟩, kj⟩ := load_ok_inv hl
  have hfe : file2 = fileSet file key value := by
    rw [show fsSet fs c.config_path (fileSet file key value) c.config_path
      = some (fileSet file key value) from by simp [fsSet]] at hfs2
    exact (Option.some.inj hfs2).symm
  subst hfe
  refine ⟨?_, ?_, ?_, ?_⟩
  · intro hkey
    subst hkey
    rw [show fileSet file "COHERE_API_KEY" value "COHERE_API_KEY" = some value
      from by simp [fileSet]] at k1
    exact (Option.some.inj k1).symm
  · intro hkey
    subst hkey
    rw [show fileSet file "DISCORD_TOKEN" value "DISCORD_TOKEN" = some value
      from by simp [fileSet]] at k2
    exact (Option.some.inj k2).symm
  · intro hkey
    subst hkey
    rw [show fileSet file "MASTER_ADMIN_ID" value "MASTER_ADMIN_ID" = some value
      from by simp [fileSet]] at hms
    rw [Option.some.inj hms]
    exact hmsv
  · intro hkey
    subst hkey
    rw [show fileSet file "ADMIN_USER_IDS" value "ADMIN_USER_IDS" = some value
      from by simp [fileSet]] at kj
    simpa using kj

/-- Witness for the amended C6: updating DISCORD_TOKEN to "newtok" on the
valid file succeeds, the rewritten file loads, and the loaded config carries
"newtok" as the token. -/
theorem update_then_load_round_trip_witness :
    Config.load updGoodFS "good.ini" = Except.ok loadedGood ∧
    loadedGood.discord_token = "newtok" :=
  ⟨rfl, (update_then_load_round_trip cGood fsGood "DISCORD_TOKEN" "newtok"
    updGoodFS updGoodC rfl loadedGood rfl).2.1 rfl⟩

/-- C10: when `update_config("ADMIN_USER_IDS", value)` fails because the
value is not JSON text denoting a list, the in-memory config is returned
unchanged (every field), yet the call has already rewritten the persisted
file with the bad value stored under ADMIN_USER_IDS — the write is not
rolled back, so disk and memory diverge. -/
theorem update_admin_invalid_json_divergence (c : Config) (fs : ConfigFS)
    (value : String) (file : ConfigFile) (w : String)
    (hfs : fs c.config_path = some file) (hk : file "ADMIN_USER_IDS" = some w)
    (hbad : ∀ l, parseJson value ≠ some (Json.arr l)) :
    Config.update_config c fs "ADMIN_USER_IDS" value =
      (fsSet fs c.config_path (fileSet file "ADMIN_USER_IDS" value), c,
        Except.error UpdateErr.failed) ∧
    fileSet file "ADMIN_USER_IDS" value "ADMIN_USER_IDS" = some value := by
  refine ⟨?_, by simp [fileSet]⟩
  simp only [Config.update_config, hfs, hk]
  cases hj : parseJson value with
  | none => simp
  | some j =>
    cases j with
    | arr l => exact absurd hj (hbad l)
    | null => simp
    | bool b => simp
    | num n => simp
    | str t => simp

/-- Witness for C10 at a concrete input: updating ADMIN_USER_IDS to the
non-JSON text "oops" on the valid file fails, leaves the in-memory config
untouched, and leaves "oops" persisted in the file. -/
theorem update_admin_invalid_json_divergence_witness :
    Config.update_config cGood fsGood "ADMIN_USER_IDS" "oops" =
      (fsSet fsGood "good.ini" (fileSet fileGood "ADMIN_USER_IDS" "oops"), cGood,
        Except.error UpdateErr.failed) ∧
    fileSet fileGood "ADMIN_USER_IDS" "oops" "ADMIN_USER_IDS" = some "oops" :=
  update_admin_invalid_json_divergence cGood fsGood "oops" fileGood "[2, 3]" rfl rfl
    (fun l h => by
      rw [show parseJson "oops" = none from rfl] at h
      exact Option.noConfusion h)

end WST

